import Mathlib

/-!
Verification of the incremental tabular ETL engine shared by the batch jobs
in this repository (`Backup/CVD_Grating.py`, `050 TAK_MESA/050_TAK_MESA.py`,
`051_Particle/051_Particle.py`, `052_Facet_THK/Facet_Common.py`,
`Backup/CVD_Crystal_Length_INI contorl V1.3.py`,
`048 TAK_SPC/048_TAK_SPUT.py`).

Datetimes are modelled as natural-number ticks; the pandas parsers
(`pd.to_datetime(..., errors="coerce")`, `float()`, `int()`) are external
library calls and are passed in as explicit function parameters returning
`Option` values (`none` = NaT / parse failure).  Tables are lists of rows;
a row is a positional list of cells, matching the position-addressed
`df.iloc` access used throughout the source.
-/

namespace ETL

/-- An untyped spreadsheet cell as it sits in a pandas DataFrame:
missing (NaN/None), a string, an integer-valued number, or a boolean. -/
inductive Cell where
  | na    : Cell
  | str   : String → Cell
  | num   : Int → Cell
  | boolv : Bool → Cell
deriving DecidableEq, Repr

/-- `pd.isna` on a cell. -/
def Cell.isNa : Cell → Bool
  | .na => true
  | _ => false

/-- Python `str()` applied to a cell value (used on serial numbers before
the SQL lookup). -/
def Cell.pyStr : Cell → String
  | .na => "nan"
  | .str s => s
  | .num n => toString n
  | .boolv b => if b then "True" else "False"

/-- Python truthiness `bool(x)` for the non-string cell values that can
reach the `bool` conversion branch (NaN is diverted earlier by `pd.isna`;
`bool(nan)` is `True` in Python, which the `.na` case records). -/
def Cell.truthy : Cell → Bool
  | .na => true
  | .str s => s ≠ ""
  | .num n => n ≠ 0
  | .boolv b => b

/-- A row of a DataFrame, addressed positionally like `df.iloc[i, j]`. -/
abbrev Row := List Cell

/-- A DataFrame: a list of rows. -/
abbrev Table := List Row

/-- `df.iloc[_, j]` on one row; out-of-range reads give NaN (the source
always guards indices against `df.shape[1]` before reading). -/
def getCell (r : Row) (j : Nat) : Cell := r.getD j Cell.na

/-- `df.shape[1]`: the column count of the (rectangular) frame, read off
the first row. -/
def width (df : Table) : Nat := (df.head?.map List.length).getD 0

/-- Python `str.strip()` on the underlying characters. -/
def trimChars (l : List Char) : List Char :=
  ((l.dropWhile Char.isWhitespace).reverse.dropWhile Char.isWhitespace).reverse

/-- Python `str.strip()`. -/
def pyStrip (s : String) : String := ⟨trimChars s.data⟩

/-- Python `s.isdigit()` followed by `int(s)`: `some` exactly on nonempty
all-digit strings. -/
def pyToNat? (s : String) : Option Nat :=
  if s.data ≠ [] ∧ s.data.all Char.isDigit then
    some (s.data.foldl (fun a c => a * 10 + (c.toNat - 48)) 0)
  else none

/-- Maximum of a list of ticks, `none` on the empty list: the model of
`series.dropna().max()`. -/
def natMax? : List Nat → Option Nat
  | [] => none
  | t :: ts =>
    match natMax? ts with
    | none => some t
    | some m => some (Nat.max t m)

end ETL

namespace CVDGrating

open ETL

/-- `DEFAULT_FALLBACK_DAYS` in `Backup/CVD_Grating.py`. -/
def DEFAULT_FALLBACK_DAYS : Nat := 30

/-- `read_running_rec` of `Backup/CVD_Grating.py`: always returns
`datetime.now() - timedelta(days=default_days_ago)`; the stored file
content is logged but never used for the threshold. -/
def read_running_rec (now lookback : Nat) : Nat := now - lookback

/-- `update_running_rec` of `Backup/CVD_Grating.py`: overwrites the cursor
file with the given end date, unconditionally. -/
def update_running_rec (_store : Option Nat) (endDate : Nat) : Option Nat :=
  some endDate

/-- One `name -> (col_spec, dtype)` entry of the `fields_map` dictionary. -/
structure FieldSpec where
  key : String
  colSpec : String
  dtype : String
deriving DecidableEq, Repr

/-- `fields_map.get(k, (None, None))[0]`: the col_spec of the entry named
`k`, if present. -/
def findSpec (m : List FieldSpec) (k : String) : Option String :=
  (m.find? (fun s => s.key = k)).map (fun s => s.colSpec)

/-- The predicate a row must pass to survive the date window:
`pd.to_datetime` parses its timestamp cell and the result is `>=` the
processing-start threshold. -/
def keepsRow (parse : Cell → Option Nat) (col : Nat) (threshold : Nat)
    (r : Row) : Bool :=
  match parse (getCell r col) with
  | some t => decide (threshold ≤ t)
  | none => false

/-- `_apply_date_filter` of `Backup/CVD_Grating.py` (lines 208-247).
Guards: empty frame, missing or non-numeric `key_Start_Date_Time`
col_spec, out-of-range column index — each returns the frame unfiltered
with no latest date.  Main path: parse the timestamp column with
`errors='coerce'`, take the max over the parseable (pre-filter) values,
drop unparseable rows, keep rows at or after the threshold.  (The
in-place `update_running_rec` call it makes when the filtered frame is
empty repeats, with identical condition and value, the update its caller
performs in that case; the store effect is modelled once, at the caller,
in `process_single_excel_file`.) -/
def _apply_date_filter (parse : Cell → Option Nat) (fieldsMap : List FieldSpec)
    (threshold : Nat) (df : Table) : Table × Option Nat :=
  if df.isEmpty then (df, none)
  else
    match (findSpec fieldsMap "key_Start_Date_Time").bind pyToNat? with
    | none => (df, none)
    | some col =>
      if col < width df then
        let latest := natMax? (df.filterMap (fun r => parse (getCell r col)))
        (df.filter (keepsRow parse col threshold), latest)
      else (df, none)

/-- The `(part_num, lot_num_9)` pair the row receives from
`SQL.selectSQL`: `(none, none)` when the serial cell is NaN or blank,
otherwise the lookup result (a failed per-row query also leaves the pair
`(none, none)`, which the lookup parameter can model). -/
def rowLookup (lookup : String → Option String × Option String)
    (serialCol : Nat) (r : Row) : Option String × Option String :=
  let serial := getCell r serialCol
  if !serial.isNa && pyStrip serial.pyStr ≠ "" then lookup serial.pyStr
  else (none, none)

/-- A looked-up attribute written back into the frame: `None` becomes NaN. -/
def optCell : Option String → Cell
  | none => Cell.na
  | some s => Cell.str s

/-- `_enrich_with_sql_data` of `Backup/CVD_Grating.py` (lines 249-286).
Appends the `part_number` and `lot_number_9` columns.  Guards: empty
frame returned as is; serial column out of range, or no SQL connection,
returns every row with both new cells NaN and performs no dropna.  Main
path: fill the two columns per row from the lookup, then
`dropna(subset=['part_number'])` — only a null part number drops a row. -/
def _enrich_with_sql_data (lookup : String → Option String × Option String)
    (connOk : Bool) (serialCol : Nat) (df : Table) : Table :=
  if df.isEmpty then df
  else if serialCol < width df then
    if connOk then
      df.filterMap (fun r =>
        let pl := rowLookup lookup serialCol r
        if (optCell pl.1).isNa then none
        else some (r ++ [optCell pl.1, optCell pl.2]))
    else df.map (fun r => r ++ [Cell.na, Cell.na])
  else df.map (fun r => r ++ [Cell.na, Cell.na])

/-- The broadcast X/Y cells appended by `_merge_xy_coordinates`: for each
point `i` (1-based), row `i-1` of the coordinate sheet at the configured
X and Y columns, NaN where the sheet runs out of rows or columns. -/
def xyCells (dfxy : Table) (nPts xCol yCol : Nat) : List Cell :=
  (List.range nPts).flatMap (fun i =>
    match dfxy.get? i with
    | some xyRow => [getCell xyRow xCol, getCell xyRow yCol]
    | none => [Cell.na, Cell.na])

/-- `_merge_xy_coordinates` of `Backup/CVD_Grating.py`: broadcasts the
same per-file coordinate cells onto every row; never drops a row. -/
def _merge_xy_coordinates (dfxy : Table) (nPts xCol yCol : Nat)
    (df : Table) : Table :=
  if df.isEmpty then df
  else df.map (fun r => r ++ xyCells dfxy nPts xCol yCol)

/-- The pandas / Python primitive converters `float()`, `int(float())`
and `pd.to_datetime(...).strftime(...)`, abstracted as the source calls
them: `none` models the raised `ValueError`/`TypeError`. -/
structure Converters where
  parseFloat : Cell → Option Cell
  parseInt : Cell → Option Cell
  parseDT : Cell → Option Cell

/-- One cell conversion of `_apply_type_conversions` (the `try` body):
dispatch on the declared dtype; `bool` accepts case-insensitive
`"true"`/`"false"` strings or native truthiness; `str` always succeeds;
an unknown dtype leaves the value unchanged.  `none` = conversion raised. -/
def convertCell (conv : Converters) (dtype : String) (v : Cell) : Option Cell :=
  if dtype = "float" then conv.parseFloat v
  else if dtype = "int" then conv.parseInt v
  else if dtype = "datetime" then conv.parseDT v
  else if dtype = "bool" then
    match v with
    | Cell.str s =>
      if s.toLower = "true" then some (Cell.boolv true)
      else if s.toLower = "false" then some (Cell.boolv false)
      else none
    | c => some (Cell.boolv c.truthy)
  else if dtype = "str" then some (Cell.str v.pyStr)
  else some v

/-- The inner `for xml_key, (col_spec, dtype) in fields_map.items()` loop
of `_apply_type_conversions`, on one row: skip non-numeric or
out-of-range col_specs, write `None` over NaN cells, otherwise convert in
place; on the first failure stop (`break`) and report the row as marked
for removal, leaving the partial in-place writes behind. -/
def convertRowLoop (conv : Converters) : List FieldSpec → Row → Row × Bool
  | [], r => (r, false)
  | s :: ss, r =>
    match pyToNat? s.colSpec with
    | none => convertRowLoop conv ss r
    | some col =>
      if col < r.length then
        let v := getCell r col
        if v.isNa then convertRowLoop conv ss (r.set col Cell.na)
        else
          match convertCell conv s.dtype v with
          | some v2 => convertRowLoop conv ss (r.set col v2)
          | none => (r, true)
      else convertRowLoop conv ss r

/-- The outer `for row_idx in range(len(df_converted))` loop of
`_apply_type_conversions`, started at index `i`: returns the in-place
converted rows together with `rows_to_drop_indices`, the indices of rows
whose conversion failed. -/
def typeConvGo (conv : Converters) (fieldsMap : List FieldSpec) :
    Nat → Table → Table × List Nat
  | _, [] => ([], [])
  | i, r :: rs =>
    let p := convertRowLoop conv fieldsMap r
    let rest := typeConvGo conv fieldsMap (i + 1) rs
    (p.1 :: rest.1, if p.2 then i :: rest.2 else rest.2)

/-- `df.drop(index=drops)` on a frame whose index is `start, start+1, …`. -/
def removeIndices (drops : List Nat) : Nat → Table → Table
  | _, [] => []
  | i, r :: rs =>
    if i ∈ drops then removeIndices drops (i + 1) rs
    else r :: removeIndices drops (i + 1) rs

/-- `_apply_type_conversions` of `Backup/CVD_Grating.py` (lines 327-377)
and, with the same row-removal structure,
`Backup/CVD_Crystal_Length_INI contorl V1.3.py` (lines 275-318): run the
row-by-row conversion loop collecting `rows_to_drop_indices`, then — only
after the loop has finished — drop every marked row at once. -/
def _apply_type_conversions (conv : Converters) (fieldsMap : List FieldSpec)
    (df : Table) : Table :=
  if df.isEmpty then df
  else
    let p := typeConvGo conv fieldsMap 0 df
    if p.2.isEmpty then p.1 else removeIndices p.2 0 p.1

/-- The cursor write performed on the `df_filtered.empty` /
`df_with_sql.empty` / `df_typed.empty` / CSV-failed paths of
`process_single_excel_file`: write `latest` only when it exceeds the
freshly recomputed `read_running_rec` threshold. -/
def updateIfLater (store : Option Nat) (latest : Option Nat)
    (threshold : Nat) : Option Nat :=
  match latest with
  | some d => if threshold < d then update_running_rec store d else store
  | none => store

/-- The outcome of one run over one Excel file: the rows handed to the
CSV sink and the cursor-store content afterwards. -/
structure RunResult where
  sink : Table
  store : Option Nat
deriving DecidableEq, Repr

/-- `process_single_excel_file` of `Backup/CVD_Grating.py` (lines 417-505),
cursor- and row-relevant skeleton: read the threshold (which ignores the
stored watermark), date-filter, SQL-enrich, XY-merge, type-convert; each
empty-result early return updates the cursor only when `latest_date`
exceeds the threshold; after a successful CSV save the cursor is
overwritten with `latest_date` unconditionally (`if latest_date:`), and a
failed save falls back to the guarded update.  Column renaming does not
touch positional cells and is omitted. -/
def process_single_excel_file (parse : Cell → Option Nat) (conv : Converters)
    (lookup : String → Option String × Option String) (connOk : Bool)
    (fieldsMap : List FieldSpec) (now lookback serialCol : Nat)
    (dfxy : Table) (nPts xCol yCol : Nat) (csvOk : Bool)
    (store : Option Nat) (dfMain : Table) : RunResult :=
  if dfMain.isEmpty then ⟨[], store⟩
  else
    let threshold := read_running_rec now lookback
    let fl := _apply_date_filter parse fieldsMap threshold dfMain
    if fl.1.isEmpty then ⟨[], updateIfLater store fl.2 threshold⟩
    else
      let dfSql := _enrich_with_sql_data lookup connOk serialCol fl.1
      if dfSql.isEmpty then ⟨[], updateIfLater store fl.2 threshold⟩
      else
        let dfXy := _merge_xy_coordinates dfxy nPts xCol yCol dfSql
        let dfTyped := _apply_type_conversions conv fieldsMap dfXy
        if dfTyped.isEmpty then ⟨[], updateIfLater store fl.2 threshold⟩
        else
          if csvOk then
            ⟨dfTyped, match fl.2 with
              | some d => update_running_rec store d
              | none => store⟩
          else ⟨[], updateIfLater store fl.2 threshold⟩

end CVDGrating

namespace TakMesa

open ETL

/-- The digit group `([0-9]+)` converted by `int(...)`. -/
def digitsToNat (ds : List Char) : Nat :=
  ds.foldl (fun a c => a * 10 + (c.toNat - Char.toNat (Char.ofNat 48))) 0

/-- The optional tail `(?:\s*\(([0-9]+)\))?$` of the sheet-name regex in
`find_latest_sheet` (`050 TAK_MESA/050_TAK_MESA.py`, lines 58-84),
applied to what remains of the stripped sheet name after the escaped
pattern: an empty remainder is version 0 (suffix absent); otherwise the
remainder must be optional whitespace, `(`, one or more digits, `)` and
end-of-string, giving the digits as the version; anything else fails. -/
def suffixVersion : List Char → Option Nat
  | [] => some 0
  | rest =>
    match rest.dropWhile Char.isWhitespace with
    | c :: cs =>
      if c = Char.ofNat 40 then
        let ds := cs.takeWhile Char.isDigit
        if ds.isEmpty then none
        else if cs.drop ds.length = [Char.ofNat 41] then some (digitsToNat ds)
        else none
      else none
    | [] => none

/-- `regex.match(sheet.strip())` where
`regex = re.compile(re.escape(pattern) + r'...')`: the stripped sheet
name must start with the literal pattern and the remainder must be an
admissible version suffix; returns the parsed version. -/
def matchVersion (pat sheet : String) : Option Nat :=
  let t := trimChars sheet.data
  if pat.data.isPrefixOf t then suffixVersion (t.drop pat.data.length)
  else none

/-- The accumulator loop of `find_latest_sheet`: `latest_sheet` /
`latest_version` start at `None` / `-1`; every matching sheet whose
version is `>=` the current best replaces it. -/
def flsGo (pat : String) : Option String → Int → List String → Option String
  | best, _, [] => best
  | best, bestV, s :: rest =>
    match matchVersion pat s with
    | some v =>
      if bestV ≤ (v : Int) then flsGo pat (some s) (v : Int) rest
      else flsGo pat best bestV rest
    | none => flsGo pat best bestV rest

/-- `find_latest_sheet` of `050 TAK_MESA/050_TAK_MESA.py` (lines 58-84). -/
def find_latest_sheet (sheets : List String) (pat : String) : Option String :=
  flsGo pat none (-1) sheets

/-- Modelled from the spec's words for the amended selection rule: the
sheet with the highest parenthesized suffix (absent suffix = version 0),
ties resolved in favour of the sheet seen LAST in the list — i.e. the
first sheet of the reversed list attaining the maximal version. -/
def pick_latest_last_tie (sheets : List String) (pat : String) : Option String :=
  match natMax? (sheets.filterMap (matchVersion pat)) with
  | none => none
  | some v => sheets.reverse.find? (fun s => decide (matchVersion pat s = some v))

/-- The running `latest_version` of `flsGo` after processing `l` from the
starting value `bv` (versions are cast to `Int` because the accumulator
starts at `-1`). -/
def maxV (pat : String) (bv : Int) (l : List String) : Int :=
  l.foldl (fun a t =>
    match matchVersion pat t with
    | some v => max a (v : Int)
    | none => a) bv

end TakMesa

namespace Particle

open ETL

/-- A row as it enters the resampling block of `main` in
`051_Particle/051_Particle.py` (lines 417-448), after
`pd.to_datetime(..., errors='coerce')` on `Start_Date_Time` and
`pd.to_numeric(..., errors='coerce')` on the KeisokuData columns:
`pt` is the `PtName` group key (NaN possible), `ts` the parsed timestamp
(rows with NaT are about to be dropped), `ch1` the numeric
`Ch1KeisokuData` (NaN = `none`). -/
structure PRow where
  pt : Option String
  ts : Option Nat
  ch1 : Option Int
deriving DecidableEq, Repr

/-- A row after `df.dropna(subset=['Start_Date_Time'])`: the timestamp is
known to parse. -/
structure TRow where
  pt : Option String
  ts : Nat
  ch1 : Option Int
deriving DecidableEq, Repr

/-- `df.dropna(subset=['Start_Date_Time'])`. -/
def dropnaTs (rows : List PRow) : List TRow :=
  rows.filterMap (fun r => r.ts.map (fun t => ⟨r.pt, t, r.ch1⟩))

/-- `df['Start_Date_Time'].dt.floor(f'{interval_minutes}min')`, as the
bucket number: two timestamps share a floor value iff they share this
quotient. -/
def bucket (m : Nat) (r : TRow) : Nat := r.ts / m

/-- `target_col_for_max = 'Ch1KeisokuData' if 'Ch1KeisokuData' in
df.columns else 'Start_Date_Time'`: the column the group-wise `idxmax`
maximizes, read off one row. -/
def targetOf (hasCh1 : Bool) (r : TRow) : Option Int :=
  if hasCh1 then r.ch1 else some (r.ts : Int)

/-- Tail of the `idxmax` scan holding the best row so far and its target
value: a strictly larger value replaces the best (so the first occurrence
of the maximum wins), NaN targets are skipped. -/
def pickMaxGo (tgt : TRow → Option Int) (best : TRow) (bv : Int) :
    List TRow → TRow
  | [] => best
  | r :: rs =>
    match tgt r with
    | some v => if bv < v then pickMaxGo tgt r v rs else pickMaxGo tgt best bv rs
    | none => pickMaxGo tgt best bv rs

/-- `Series.idxmax` over one group, returned as the selected row: the
first row attaining the maximal non-NaN target value; `none` when every
target in the group is NaN (pandas raises there — no row is selected). -/
def pickMax (tgt : TRow → Option Int) : List TRow → Option TRow
  | [] => none
  | r :: rs =>
    match tgt r with
    | some v => some (pickMaxGo tgt r v rs)
    | none => pickMax tgt rs

/-- The distinct `(PtName, time_bin)` group keys of
`df.groupby(['PtName', 'time_bin'])`; rows with a NaN `PtName` belong to
no group, exactly as pandas drops NaN group keys. -/
def groupKeys (m : Nat) (rows : List TRow) : List (String × Nat) :=
  (rows.filterMap (fun r => r.pt.map (fun p => (p, bucket m r)))).dedup

/-- Membership of a row in the group of key `k`. -/
def sameKey (m : Nat) (k : String × Nat) (r : TRow) : Bool :=
  r.pt == some k.1 && bucket m r == k.2

/-- The resampling reduction `df.loc[df.groupby(['PtName', 'time_bin'])
[target_col_for_max].idxmax()]` of `051_Particle/051_Particle.py`: one
`idxmax` row per group key.  (The `sort_values(['PtName',
'Start_Date_Time'])` preceding it only permutes the input rows; the
theorems below hold for every input order.) -/
def resample (m : Nat) (hasCh1 : Bool) (rows : List TRow) : List TRow :=
  (groupKeys m rows).filterMap
    (fun k => pickMax (targetOf hasCh1) (rows.filter (sameKey m k)))

/-- The resampling block including the `dropna` on the parsed timestamp. -/
def resample_stage (m : Nat) (hasCh1 : Bool) (rows : List PRow) : List TRow :=
  resample m hasCh1 (dropnaTs rows)

/-- A calendar date as `strftime('%y%m%d')` sees it. -/
structure Date where
  year : Nat
  month : Nat
  day : Nat
deriving DecidableEq, Repr

/-- Two-digit zero padding of `%y`, `%m`, `%d`. -/
def pad2 (n : Nat) : String := if n < 10 then "0" ++ toString n else toString n

/-- `strftime('%y%m%d')`. -/
def fmtYYMMDD (d : Date) : String :=
  pad2 (d.year % 100) ++ pad2 d.month ++ pad2 d.day

/-- `build_serial_from_prefix` of `051_Particle/051_Particle.py`
(lines 246-260): try `pd.to_datetime(date_source)` when a truthy date
source is given, formatting it as YYMMDD; on absence or parse failure
fall back to today's date; prepend the stripped prefix, or return the
date alone when the stripped prefix is empty.  `parseDT` stands for
`pd.to_datetime` (`none` = raised `ValueError`/`TypeError`). -/
def build_serial_from_prefix (parseDT : String → Option Date) (today : Date)
    (pfx : String) (dateSource : Option String) : String :=
  let yymmdd :=
    match dateSource with
    | none => ""
    | some s =>
      if s = "" then ""
      else
        match parseDT s with
        | some d => fmtYYMMDD d
        | none => ""
  let ymd := if yymmdd = "" then fmtYYMMDD today else yymmdd
  let p := pyStrip pfx
  if p = "" then ymd else p ++ ymd

end Particle

namespace FacetCommon

/-- The `DataFrame.to_csv(..., mode='a', header=writeHeader, ...)` call:
append the rows, preceded by the header line exactly when `writeHeader`,
to the current file content (an absent file starts empty). -/
def to_csv_append (file : Option (List (List String))) (header : List String)
    (writeHeader : Bool) (rows : List (List String)) : List (List String) :=
  (file.getD []) ++ (if writeHeader then [header] else []) ++ rows

/-- `write_to_csv` of `052_Facet_THK/Facet_Common.py` (lines 125-135) and
`051_Particle/051_Particle.py` (lines 65-68): `file_exists =
os.path.isfile(csv_filepath)` then `to_csv(..., mode='a', header=not
file_exists, ...)`.  The file state is `none` when no file exists. -/
def write_to_csv (file : Option (List (List String))) (header : List String)
    (rows : List (List String)) : List (List String) :=
  to_csv_append file header (!file.isSome) rows

end FacetCommon

namespace CrystalV13

/-- `DEFAULT_FALLBACK_DAYS` of
`Backup/CVD_Crystal_Length_INI contorl V1.3.py`; `048
TAK_SPC/048_TAK_SPUT.py` hard-codes the same 30 days. -/
def DEFAULT_FALLBACK_DAYS : Nat := 30

/-- `read_running_rec` of `Backup/CVD_Crystal_Length_INI contorl
V1.3.py` (lines 66-95) and, with the same structure, `048
TAK_SPC/048_TAK_SPUT.py` (lines 59-80).  The cursor file is `none` when
absent, otherwise its text.  Returns the file state afterwards and the
watermark: a missing file is created empty and the fallback
`today - lookback` returned; blank or unparseable content (`pd.to_datetime
(..., errors='coerce')` giving NaT) returns the same fallback; parseable
content returns the stored datetime.  Every case returns — no input
raises. -/
def read_running_rec (parseDT : String → Option Nat) (today lookback : Nat)
    (file : Option String) : Option String × Nat :=
  let fallback := today - lookback
  match file with
  | none => (some "", fallback)
  | some content =>
    let c := ETL.pyStrip content
    if c = "" then (some content, fallback)
    else
      match parseDT c with
      | none => (some content, fallback)
      | some d => (some content, d)

end CrystalV13

/-! ## Supporting lemmas -/

open ETL

theorem natMax?_eq_none_iff (l : List Nat) : natMax? l = none ↔ l = [] := by
  cases l with
  | nil => simp [natMax?]
  | cons a t =>
    simp only [natMax?]
    constructor
    · intro h
      cases hh : natMax? t <;> rw [hh] at h <;> simp at h
    · intro h
      exact absurd h (List.cons_ne_nil a t)

theorem natMax?_eq_some_iff (l : List Nat) :
    ∀ d, natMax? l = some d ↔ d ∈ l ∧ ∀ t ∈ l, t ≤ d := by
  induction l with
  | nil => intro d; simp [natMax?]
  | cons a l ih =>
    intro d
    cases h : natMax? l with
    | none =>
      have hl : l = [] := (natMax?_eq_none_iff l).mp h
      subst hl
      simp only [natMax?, Option.some.injEq, List.mem_singleton,
        List.forall_mem_singleton]
      constructor
      · rintro rfl; exact ⟨rfl, fun t ht => Nat.le_of_eq ht⟩
      · rintro ⟨rfl, _⟩; rfl
    | some m =>
      obtain ⟨hmem, hbound⟩ := (ih m).mp h
      simp only [natMax?, h, Option.some.injEq]
      constructor
      · rintro rfl
        refine ⟨?_, ?_⟩
        · rcases Nat.le_total a m with h1 | h1
          · have he : Nat.max a m = m := Nat.max_eq_right h1
            rw [he]; exact List.mem_cons_of_mem a hmem
          · have he : Nat.max a m = a := Nat.max_eq_left h1
            rw [he]; exact List.mem_cons_self a l
        · intro t ht
          rcases List.mem_cons.mp ht with rfl | ht
          · exact Nat.le_max_left _ _
          · exact Nat.le_trans (hbound t ht) (Nat.le_max_right _ _)
      · rintro ⟨hd, hb⟩
        have h1 : a ≤ d := hb a (List.mem_cons_self a l)
        have h2 : m ≤ d := hb m (List.mem_cons_of_mem a hmem)
        have h3 : d ≤ Nat.max a m := by
          rcases List.mem_cons.mp hd with rfl | hd2
          · exact Nat.le_max_left _ _
          · exact Nat.le_trans (hbound d hd2) (Nat.le_max_right _ _)
        exact Nat.le_antisymm (Nat.max_le.mpr ⟨h1, h2⟩) h3

theorem string_empty_append (s : String) : "" ++ s = s := by
  cases s; rfl

theorem pad2_length : ∀ n, n < 100 → (Particle.pad2 n).length = 2 := by
  decide

theorem fmtYYMMDD_length (d : Particle.Date) (hm : d.month < 100)
    (hd : d.day < 100) : (Particle.fmtYYMMDD d).length = 6 := by
  unfold Particle.fmtYYMMDD
  rw [String.length_append, String.length_append,
    pad2_length _ (Nat.mod_lt _ (by decide)), pad2_length _ hm,
    pad2_length _ hd]

/-! ## Claim theorems -/

/-- C9: every CSV sink write appends the rows to the target file, and
the header row is written if and only if the target file did not already
exist before the write. -/
theorem write_to_csv_appends_header_iff_new :
    (∀ (header : List String) rows,
        FacetCommon.write_to_csv none header rows = header :: rows) ∧
    (∀ existing (header : List String) rows,
        FacetCommon.write_to_csv (some existing) header rows
          = existing ++ rows) := by
  constructor
  · intro header rows; rfl
  · intro existing header rows
    simp [FacetCommon.write_to_csv, FacetCommon.to_csv_append]

/-- C8: the Cursor Store read never fails fatally: the default lookback
is 30 days; a missing cursor file returns `today - lookback` and leaves
an empty placeholder file behind; content that does not parse as a
datetime returns the same fallback; and every read returns either the
fallback or the parsed stored datetime. -/
theorem read_running_rec_never_fatal (parseDT : String → Option Nat)
    (today lookback : Nat) :
    CrystalV13.DEFAULT_FALLBACK_DAYS = 30 ∧
    CrystalV13.read_running_rec parseDT today lookback none
      = (some "", today - lookback) ∧
    (∀ content, parseDT (ETL.pyStrip content) = none →
        (CrystalV13.read_running_rec parseDT today lookback
          (some content)).2 = today - lookback) ∧
    (∀ file, (CrystalV13.read_running_rec parseDT today lookback file).2
          = today - lookback ∨
        ∃ c d, file = some c ∧ ETL.pyStrip c ≠ "" ∧ parseDT (ETL.pyStrip c) = some d ∧
          (CrystalV13.read_running_rec parseDT today lookback file).2 = d) := by
  refine ⟨rfl, rfl, ?_, ?_⟩
  · intro content h
    by_cases hc : ETL.pyStrip content = ""
    · simp [CrystalV13.read_running_rec, hc]
    · simp [CrystalV13.read_running_rec, hc, h]
  · intro file
    cases file with
    | none => left; rfl
    | some c =>
      by_cases hc : ETL.pyStrip c = ""
      · left; simp [CrystalV13.read_running_rec, hc]
      · cases hp : parseDT (ETL.pyStrip c) with
        | none => left; simp [CrystalV13.read_running_rec, hc, hp]
        | some d =>
          right
          exact ⟨c, d, rfl, hc, hp,
            by simp [CrystalV13.read_running_rec, hc, hp]⟩

/-- Witness for C8, at a parser rejecting everything and `today = 100`,
`lookback = 30`. -/
theorem read_running_rec_never_fatal_witness :
    (CrystalV13.read_running_rec (fun _ => none) 100 30
      (some "garbage")).2 = 100 - 30 :=
  (read_running_rec_never_fatal (fun _ => none) 100 30).2.2.1 "garbage" rfl

/-- C10: `build_serial_from_prefix` returns the stripped prefix followed
by the six-digit YYMMDD rendering of a date, where the date is the
parsed date source when one is given and parses, and today's date when
the source is missing, empty or unparseable; a blank prefix strips to
`""`, leaving the six-digit date alone. -/
theorem build_serial_from_prefix_spec
    (parseDT : String → Option Particle.Date) (today : Particle.Date)
    (pfx : String) (ds : Option String)
    (hm : today.month < 100) (hd : today.day < 100)
    (hp : ∀ s d, parseDT s = some d → d.month < 100 ∧ d.day < 100) :
    ∃ d : Particle.Date,
      ((∃ s, ds = some s ∧ s ≠ "" ∧ parseDT s = some d) ∨
        (d = today ∧ (ds = none ∨ ds = some "" ∨
          ∃ s, ds = some s ∧ parseDT s = none))) ∧
      Particle.build_serial_from_prefix parseDT today pfx ds
        = ETL.pyStrip pfx ++ Particle.fmtYYMMDD d ∧
      (Particle.fmtYYMMDD d).length = 6 := by
  have key : ∀ d : Particle.Date,
      (if ETL.pyStrip pfx = "" then Particle.fmtYYMMDD d
        else ETL.pyStrip pfx ++ Particle.fmtYYMMDD d)
        = ETL.pyStrip pfx ++ Particle.fmtYYMMDD d := by
    intro d
    split
    · rename_i h; rw [h, string_empty_append]
    · rfl
  cases ds with
  | none =>
    refine ⟨today, Or.inr ⟨rfl, Or.inl rfl⟩, ?_, fmtYYMMDD_length _ hm hd⟩
    simp only [Particle.build_serial_from_prefix, if_pos rfl]
    exact key today
  | some s =>
    by_cases hs : s = ""
    · subst hs
      refine ⟨today, Or.inr ⟨rfl, Or.inr (Or.inl rfl)⟩, ?_,
        fmtYYMMDD_length _ hm hd⟩
      simp only [Particle.build_serial_from_prefix, if_pos rfl]
      exact key today
    · cases hps : parseDT s with
      | none =>
        refine ⟨today, Or.inr ⟨rfl, Or.inr (Or.inr ⟨s, rfl, hps⟩)⟩, ?_,
          fmtYYMMDD_length _ hm hd⟩
        simp only [Particle.build_serial_from_prefix, if_neg hs, hps,
          if_pos rfl]
        exact key today
      | some d =>
        obtain ⟨hm2, hd2⟩ := hp s d hps
        have hlen : (Particle.fmtYYMMDD d).length = 6 :=
          fmtYYMMDD_length _ hm2 hd2
        have hne : Particle.fmtYYMMDD d ≠ "" := by
          intro h0
          rw [h0] at hlen
          exact absurd hlen (by decide)
        refine ⟨d, Or.inl ⟨s, rfl, hs, hps⟩, ?_, hlen⟩
        simp only [Particle.build_serial_from_prefix, if_neg hs, hps,
          if_neg hne]
        exact key d

/-- C1: a row survives `_apply_date_filter` (when the timestamp field is
configured and in range) if and only if its timestamp cell parses as a
datetime and the parsed timestamp is at or after the watermark; a row
whose timestamp cell does not parse never survives. -/
theorem apply_date_filter_keeps_iff (parse : Cell → Option Nat)
    (fieldsMap : List CVDGrating.FieldSpec) (threshold : Nat) (df : Table)
    (col : Nat)
    (hspec : (CVDGrating.findSpec fieldsMap "key_Start_Date_Time").bind
        ETL.pyToNat? = some col)
    (hcol : col < width df) (r : Row) :
    r ∈ (CVDGrating._apply_date_filter parse fieldsMap threshold df).1 ↔
      r ∈ df ∧ ∃ t, parse (getCell r col) = some t ∧ threshold ≤ t := by
  cases df with
  | nil => exact absurd hcol (by simp [width])
  | cons r0 rs =>
    simp only [CVDGrating._apply_date_filter, List.isEmpty_cons, hspec,
      Bool.false_eq_true, if_false]
    rw [if_pos hcol, List.mem_filter]
    unfold CVDGrating.keepsRow
    cases hpt : parse (getCell r col) with
    | none => simp [hpt]
    | some t => simp [hpt]

/-- Witness for C1: watermark 30; the row with timestamp 50 survives. -/
theorem apply_date_filter_keeps_iff_witness :
    ([Cell.num 50] ∈ (CVDGrating._apply_date_filter
        (fun c => match c with | Cell.num n => some n.natAbs | _ => none)
        [⟨"key_Start_Date_Time", "0", "datetime"⟩] 30
        [[Cell.num 50], [Cell.num 10], [Cell.str "bad"]]).1) ↔
      ([Cell.num 50] ∈
          ([[Cell.num 50], [Cell.num 10], [Cell.str "bad"]] : Table) ∧
        ∃ t, (fun c => match c with
            | Cell.num n => some n.natAbs | _ => none)
          (getCell [Cell.num 50] 0) = some t ∧ 30 ≤ t) :=
  apply_date_filter_keeps_iff
    (fun c => match c with | Cell.num n => some n.natAbs | _ => none)
    [⟨"key_Start_Date_Time", "0", "datetime"⟩] 30
    [[Cell.num 50], [Cell.num 10], [Cell.str "bad"]] 0 (by decide)
    (by decide) [Cell.num 50]

/-- C7 counterexample: the lookup for serial `"S1"` returns the partial
match `("PN123", null)`; the claim says such a row is dropped exactly as
a full miss, but `_enrich_with_sql_data` retains it, with a null lot
number attached. -/
theorem enrich_partial_match_retained :
    CVDGrating._enrich_with_sql_data (fun _ => (some "PN123", none)) true 0
      [[Cell.str "S1"]]
      = [[Cell.str "S1", Cell.str "PN123", Cell.na]] := by rfl

/-- C7 amended: with a live connection and an in-range serial column, a
row is dropped iff the lookup gives it a null part number (no match, or
a partial match missing the part number); a partial match missing only
the lot number is retained with a null lot cell, and a full match is
retained with both attributes appended. -/
theorem enrich_mem_iff (lookup : String → Option String × Option String)
    (serialCol : Nat) (df : Table) (hcol : serialCol < width df) (r2 : Row) :
    r2 ∈ CVDGrating._enrich_with_sql_data lookup true serialCol df ↔
      ∃ r, r ∈ df ∧
        (CVDGrating.rowLookup lookup serialCol r).1 ≠ none ∧
        r2 = r ++
          [CVDGrating.optCell (CVDGrating.rowLookup lookup serialCol r).1,
           CVDGrating.optCell (CVDGrating.rowLookup lookup serialCol r).2] := by
  cases df with
  | nil => exact absurd hcol (by simp [width])
  | cons r0 rs =>
    simp only [CVDGrating._enrich_with_sql_data, List.isEmpty_cons,
      Bool.false_eq_true, if_false, if_true]
    rw [if_pos hcol, List.mem_filterMap]
    constructor
    · rintro ⟨r, hr, hf⟩
      refine ⟨r, hr, ?_⟩
      cases hpl : (CVDGrating.rowLookup lookup serialCol r).1 with
      | none =>
        rw [hpl] at hf
        simp [CVDGrating.optCell, ETL.Cell.isNa] at hf
      | some p =>
        rw [hpl] at hf
        simp only [CVDGrating.optCell, ETL.Cell.isNa, Bool.false_eq_true,
          if_false, Option.some.injEq] at hf
        refine ⟨by simp [hpl], ?_⟩
        exact hf.symm
    · rintro ⟨r, hr, hne, rfl⟩
      refine ⟨r, hr, ?_⟩
      cases hpl : (CVDGrating.rowLookup lookup serialCol r).1 with
      | none => exact absurd hpl hne
      | some p => simp [hpl, CVDGrating.optCell, ETL.Cell.isNa]

/-- Witness for C7's amended claim: the full match `("PN123","LOT9")`
for serial `"S2"` keeps the row with both attributes attached. -/
theorem enrich_mem_iff_witness :
    ([Cell.str "S2", Cell.str "PN123", Cell.str "LOT9"] ∈
        CVDGrating._enrich_with_sql_data
          (fun _ => (some "PN123", some "LOT9")) true 0
          [[Cell.str "S2"]]) ↔
      ∃ r, r ∈ ([[Cell.str "S2"]] : Table) ∧
        (CVDGrating.rowLookup (fun _ => (some "PN123", some "LOT9")) 0 r).1
          ≠ none ∧
        [Cell.str "S2", Cell.str "PN123", Cell.str "LOT9"] = r ++
          [CVDGrating.optCell
            (CVDGrating.rowLookup (fun _ => (some "PN123", some "LOT9")) 0 r).1,
           CVDGrating.optCell
            (CVDGrating.rowLookup (fun _ => (some "PN123", some "LOT9")) 0 r).2] :=
  enrich_mem_iff (fun _ => (some "PN123", some "LOT9")) 0 [[Cell.str "S2"]]
    (by decide) _

/-- C2 counterexample: stored watermark 100; a run at `now = 60`,
`lookback = 30` over a single row with timestamp 50 reaches the Sink and
overwrites the cursor with 50 < 100 — the stored watermark decreases
across runs. -/
theorem cursor_watermark_can_decrease :
    (CVDGrating.process_single_excel_file
        (fun c => match c with | Cell.num n => some n.natAbs | _ => none)
        ⟨some, some, some⟩
        (fun _ => (some "PN", some "LOT")) true
        [⟨"key_Start_Date_Time", "0", "datetime"⟩]
        60 30 0 [] 0 0 0 true (some 100) [[Cell.num 50]]).store
      = some 50 ∧ (50 : Nat) < 100 :=
  ⟨by rfl, by decide⟩

/-- C2 amended: a run never consults the previously stored watermark:
the store is either left unchanged, or overwritten with the latest
parseable pre-filter timestamp — and an overwrite happens only when rows
reached the Sink (the write after a successful CSV save is
unconditional) or when that timestamp strictly exceeds the run's
`now - lookback` threshold.  The stored value can therefore decrease. -/
theorem cursor_write_rule (parse : Cell → Option Nat)
    (conv : CVDGrating.Converters)
    (lookup : String → Option String × Option String) (connOk : Bool)
    (fieldsMap : List CVDGrating.FieldSpec)
    (now lookback serialCol : Nat) (dfxy : Table) (nPts xCol yCol : Nat)
    (csvOk : Bool) (store : Option Nat) (dfMain : Table) :
    (CVDGrating.process_single_excel_file parse conv lookup connOk fieldsMap
        now lookback serialCol dfxy nPts xCol yCol csvOk store dfMain).store
        = store ∨
      ∃ d, (CVDGrating._apply_date_filter parse fieldsMap (now - lookback)
              dfMain).2 = some d ∧
        (CVDGrating.process_single_excel_file parse conv lookup connOk
            fieldsMap now lookback serialCol dfxy nPts xCol yCol csvOk store
            dfMain).store = some d ∧
        ((CVDGrating.process_single_excel_file parse conv lookup connOk
            fieldsMap now lookback serialCol dfxy nPts xCol yCol csvOk store
            dfMain).sink ≠ [] ∨ now - lookback < d) := by
  unfold CVDGrating.process_single_excel_file
  simp only [CVDGrating.read_running_rec]
  split
  · left; rfl
  · generalize CVDGrating._apply_date_filter parse fieldsMap
      (now - lookback) dfMain = fl
    obtain ⟨dff, latest⟩ := fl
    cases latest with
    | none =>
      simp only [CVDGrating.updateIfLater]
      split
      · left; rfl
      · split
        · left; rfl
        · split
          · left; rfl
          · split
            · left; rfl
            · left; rfl
    | some d =>
      simp only [CVDGrating.updateIfLater, CVDGrating.update_running_rec]
      split
      · -- date-filtered frame empty
        split
        · right; exact ⟨d, rfl, rfl, Or.inr (by assumption)⟩
        · left; rfl
      · split
        · -- SQL-enriched frame empty
          split
          · right; exact ⟨d, rfl, rfl, Or.inr (by assumption)⟩
          · left; rfl
        · split
          · -- type-converted frame empty
            split
            · right; exact ⟨d, rfl, rfl, Or.inr (by assumption)⟩
            · left; rfl
          · split
            · -- CSV saved: unconditional overwrite, nonempty sink
              rename_i hne _
              right
              refine ⟨d, rfl, rfl, Or.inl ?_⟩
              intro h0
              apply hne
              have h1 : CVDGrating._apply_type_conversions conv fieldsMap
                  (CVDGrating._merge_xy_coordinates dfxy nPts xCol yCol
                    (CVDGrating._enrich_with_sql_data lookup connOk serialCol
                      dff)) = [] := h0
              rw [h1]
              rfl
            · split
              · right; exact ⟨d, rfl, rfl, Or.inr (by assumption)⟩
              · left; rfl

theorem removeIndices_nil_drops :
    ∀ (rows : Table) (i : Nat),
      CVDGrating.removeIndices [] i rows = rows := by
  intro rows
  induction rows with
  | nil => intro i; rfl
  | cons r rs ih =>
    intro i
    simp only [CVDGrating.removeIndices, List.not_mem_nil, if_false]
    rw [ih]

theorem removeIndices_cons_lt (a : Nat) (D : List Nat) :
    ∀ (rows : Table) (i : Nat), a < i →
      CVDGrating.removeIndices (a :: D) i rows
        = CVDGrating.removeIndices D i rows := by
  intro rows
  induction rows with
  | nil => intro i _; rfl
  | cons r rs ih =>
    intro i h
    have hne : ¬ i = a := Nat.ne_of_gt h
    simp only [CVDGrating.removeIndices, List.mem_cons, hne, false_or]
    by_cases hmem : i ∈ D
    · rw [if_pos hmem, if_pos hmem, ih _ (Nat.lt_succ_of_lt h)]
    · rw [if_neg hmem, if_neg hmem, ih _ (Nat.lt_succ_of_lt h)]

theorem typeConvGo_drops_ge (conv : CVDGrating.Converters)
    (fieldsMap : List CVDGrating.FieldSpec) :
    ∀ (df : Table) (i d : Nat),
      d ∈ (CVDGrating.typeConvGo conv fieldsMap i df).2 → i ≤ d := by
  intro df
  induction df with
  | nil => intro i d h; simp [CVDGrating.typeConvGo] at h
  | cons r rs ih =>
    intro i d h
    simp only [CVDGrating.typeConvGo] at h
    by_cases hp : (CVDGrating.convertRowLoop conv fieldsMap r).2 = true
    · rw [if_pos hp] at h
      rcases List.mem_cons.mp h with rfl | h2
      · exact Nat.le_refl d
      · exact Nat.le_of_succ_le (ih _ _ h2)
    · rw [if_neg hp] at h
      exact Nat.le_of_succ_le (ih _ _ h)

theorem typeConvGo_removeIndices_eq (conv : CVDGrating.Converters)
    (fieldsMap : List CVDGrating.FieldSpec) :
    ∀ (df : Table) (i : Nat),
      CVDGrating.removeIndices (CVDGrating.typeConvGo conv fieldsMap i df).2 i
          (CVDGrating.typeConvGo conv fieldsMap i df).1
        = df.filterMap (fun r =>
            if (CVDGrating.convertRowLoop conv fieldsMap r).2 then none
            else some (CVDGrating.convertRowLoop conv fieldsMap r).1) := by
  intro df
  induction df with
  | nil => intro i; rfl
  | cons r rs ih =>
    intro i
    simp only [CVDGrating.typeConvGo, List.filterMap_cons]
    by_cases hp : (CVDGrating.convertRowLoop conv fieldsMap r).2 = true
    · rw [if_pos hp, if_pos hp]
      simp only [CVDGrating.removeIndices,
        if_pos (List.mem_cons_self i (CVDGrating.typeConvGo conv fieldsMap
          (i + 1) rs).2)]
      rw [removeIndices_cons_lt i _ _ _ (Nat.lt_succ_self i)]
      exact ih (i + 1)
    · rw [if_neg hp, if_neg hp]
      have hnm : ¬ i ∈ (CVDGrating.typeConvGo conv fieldsMap (i + 1) rs).2 := by
        intro hmem
        exact absurd (typeConvGo_drops_ge conv fieldsMap rs (i + 1) i hmem)
          (by omega)
      simp only [CVDGrating.removeIndices, if_neg hnm]
      rw [ih (i + 1)]

/-- C5: type coercion drops exactly the rows on which some declared
field's conversion fails — the output is the per-row filter of the fully
converted rows, so no partial record survives — and the end-of-loop
index drop (`removeIndices` over the collected `rows_to_drop_indices`)
computes precisely that single-pass batch removal. -/
theorem apply_type_conversions_drops_whole_rows
    (conv : CVDGrating.Converters)
    (fieldsMap : List CVDGrating.FieldSpec) (df : Table) :
    CVDGrating._apply_type_conversions conv fieldsMap df
      = df.filterMap (fun r =>
          if (CVDGrating.convertRowLoop conv fieldsMap r).2 then none
          else some (CVDGrating.convertRowLoop conv fieldsMap r).1)
    ∧ ∀ r2, (r2 ∈ CVDGrating._apply_type_conversions conv fieldsMap df ↔
        ∃ r, r ∈ df ∧
          CVDGrating.convertRowLoop conv fieldsMap r = (r2, false)) := by
  have h1 : CVDGrating._apply_type_conversions conv fieldsMap df
      = df.filterMap (fun r =>
          if (CVDGrating.convertRowLoop conv fieldsMap r).2 then none
          else some (CVDGrating.convertRowLoop conv fieldsMap r).1) := by
    unfold CVDGrating._apply_type_conversions
    split
    · rename_i h
      rw [List.isEmpty_iff.mp h]
      rfl
    · show (if (CVDGrating.typeConvGo conv fieldsMap 0 df).2.isEmpty = true
          then (CVDGrating.typeConvGo conv fieldsMap 0 df).1
          else CVDGrating.removeIndices
            (CVDGrating.typeConvGo conv fieldsMap 0 df).2 0
            (CVDGrating.typeConvGo conv fieldsMap 0 df).1) = _
      split
      · rename_i hd
        have h2 := typeConvGo_removeIndices_eq conv fieldsMap df 0
        rw [List.isEmpty_iff.mp hd, removeIndices_nil_drops] at h2
        exact h2
      · exact typeConvGo_removeIndices_eq conv fieldsMap df 0
  refine ⟨h1, ?_⟩
  intro r2
  rw [h1, List.mem_filterMap]
  constructor
  · rintro ⟨r, hr, hf⟩
    by_cases hp : (CVDGrating.convertRowLoop conv fieldsMap r).2 = true
    · rw [if_pos hp] at hf; cases hf
    · rw [if_neg hp] at hf
      refine ⟨r, hr, ?_⟩
      rw [Prod.ext_iff]
      exact ⟨Option.some.inj hf, Bool.eq_false_iff.mpr hp⟩
  · rintro ⟨r, hr, hcv⟩
    refine ⟨r, hr, ?_⟩
    rw [hcv]
    rfl

/-- C3: `_apply_date_filter` returns as latest date the maximum over
all parseable timestamps of the pre-filter column (rows the filter
removes included), and whenever the run ends with zero rows at the Sink
but that latest date exceeds the `now - lookback` threshold, the cursor
is advanced to it. -/
theorem date_filter_latest_and_zero_sink_advance :
    (∀ (parse : Cell → Option Nat) (fieldsMap : List CVDGrating.FieldSpec)
        (threshold : Nat) (df : Table) (col d : Nat),
        (CVDGrating.findSpec fieldsMap "key_Start_Date_Time").bind
            ETL.pyToNat? = some col →
        col < width df →
        ((CVDGrating._apply_date_filter parse fieldsMap threshold df).2
            = some d ↔
          d ∈ df.filterMap (fun r => parse (getCell r col)) ∧
          ∀ t ∈ df.filterMap (fun r => parse (getCell r col)), t ≤ d))
    ∧ (∀ (parse : Cell → Option Nat) (conv : CVDGrating.Converters)
        (lookup : String → Option String × Option String) (connOk : Bool)
        (fieldsMap : List CVDGrating.FieldSpec)
        (now lookback serialCol : Nat) (dfxy : Table) (nPts xCol yCol : Nat)
        (csvOk : Bool) (store : Option Nat) (dfMain : Table) (d : Nat),
        (CVDGrating.process_single_excel_file parse conv lookup connOk
            fieldsMap now lookback serialCol dfxy nPts xCol yCol csvOk store
            dfMain).sink = [] →
        (CVDGrating._apply_date_filter parse fieldsMap (now - lookback)
            dfMain).2 = some d →
        now - lookback < d →
        (CVDGrating.process_single_excel_file parse conv lookup connOk
            fieldsMap now lookback serialCol dfxy nPts xCol yCol csvOk store
            dfMain).store = some d) := by
  constructor
  · intro parse fieldsMap threshold df col d hspec hcol
    cases df with
    | nil => exact absurd hcol (by simp [width])
    | cons r0 rs =>
      simp only [CVDGrating._apply_date_filter, List.isEmpty_cons, hspec,
        Bool.false_eq_true, if_false]
      rw [if_pos hcol]
      exact natMax?_eq_some_iff _ d
  · intro parse conv lookup connOk fieldsMap now lookback serialCol dfxy nPts
      xCol yCol csvOk store dfMain d
    unfold CVDGrating.process_single_excel_file
    simp only [CVDGrating.read_running_rec]
    split
    · rename_i hM
      intro _ hlat
      unfold CVDGrating._apply_date_filter at hlat
      rw [if_pos hM] at hlat
      cases hlat
    · generalize CVDGrating._apply_date_filter parse fieldsMap
        (now - lookback) dfMain = fl
      obtain ⟨dff, latest⟩ := fl
      intro _ hlat hthr
      have hlat2 : latest = some d := hlat
      subst hlat2
      simp only [CVDGrating.updateIfLater, CVDGrating.update_running_rec,
        hthr, if_true]
      split
      · rfl
      · split
        · rfl
        · split
          · rfl
          · split
            · rfl
            · rfl

/-- Witness for C3: the pre-filter maximum 50 over column 0 of
`[[50], [10]]`, and a run whose single row (timestamp 50) is dropped by
an enrichment full miss so that nothing reaches the Sink, yet the cursor
advances to 50 past the threshold 30. -/
theorem date_filter_latest_and_zero_sink_advance_witness :
    (((CVDGrating._apply_date_filter
        (fun c => match c with | Cell.num n => some n.natAbs | _ => none)
        [⟨"key_Start_Date_Time", "0", "datetime"⟩] 30
        [[Cell.num 50], [Cell.num 10]]).2 = some 50) ↔
      (50 ∈ ([[Cell.num 50], [Cell.num 10]] : Table).filterMap
          (fun r => (fun c => match c with
            | Cell.num n => some n.natAbs | _ => none) (getCell r 0)) ∧
        ∀ t ∈ ([[Cell.num 50], [Cell.num 10]] : Table).filterMap
          (fun r => (fun c => match c with
            | Cell.num n => some n.natAbs | _ => none) (getCell r 0)), t ≤ 50))
    ∧ (CVDGrating.process_single_excel_file
        (fun c => match c with | Cell.num n => some n.natAbs | _ => none)
        ⟨some, some, some⟩ (fun _ => (none, none)) true
        [⟨"key_Start_Date_Time", "0", "datetime"⟩]
        60 30 0 [] 0 0 0 true (some 100) [[Cell.num 50]]).store = some 50 :=
  ⟨date_filter_latest_and_zero_sink_advance.1
      (fun c => match c with | Cell.num n => some n.natAbs | _ => none)
      [⟨"key_Start_Date_Time", "0", "datetime"⟩] 30
      [[Cell.num 50], [Cell.num 10]] 0 50 (by decide) (by decide),
    date_filter_latest_and_zero_sink_advance.2
      (fun c => match c with | Cell.num n => some n.natAbs | _ => none)
      ⟨some, some, some⟩ (fun _ => (none, none)) true
      [⟨"key_Start_Date_Time", "0", "datetime"⟩]
      60 30 0 [] 0 0 0 true (some 100) [[Cell.num 50]] 50
      (by decide) (by decide) (by decide)⟩

theorem maxV_eq_foldl (pat : String) :
    ∀ (l : List String) (bv : Int),
      TakMesa.maxV pat bv l
        = (l.filterMap (TakMesa.matchVersion pat)).foldl
            (fun a v => max a (v : Int)) bv := by
  intro l
  induction l with
  | nil => intro bv; rfl
  | cons t l ih =>
    intro bv
    cases hm : TakMesa.matchVersion pat t with
    | none =>
      simp only [TakMesa.maxV, List.foldl_cons, hm, List.filterMap_cons]
      exact ih bv
    | some v =>
      simp only [TakMesa.maxV, List.foldl_cons, hm, List.filterMap_cons]
      exact ih (max bv (v : Int))

theorem foldl_max_natMax? :
    ∀ (ns : List Nat) (a : Int),
      ns.foldl (fun x v => max x (v : Int)) a
        = match natMax? ns with
          | none => a
          | some m => max a (m : Int) := by
  intro ns
  induction ns with
  | nil => intro a; rfl
  | cons t ts ih =>
    intro a
    show List.foldl (fun x v => max x (v : Int)) (max a (t : Int)) ts = _
    rw [ih (max a (t : Int))]
    cases h : natMax? ts with
    | none =>
      simp only [natMax?, h]
    | some m =>
      simp only [natMax?, h]
      rw [Nat.cast_max, max_assoc]

theorem maxV_neg_one (pat : String) (l : List String) :
    TakMesa.maxV pat (-1) l
      = match natMax? (l.filterMap (TakMesa.matchVersion pat)) with
        | none => (-1 : Int)
        | some m => (m : Int) := by
  rw [maxV_eq_foldl, foldl_max_natMax?]
  cases h : natMax? (l.filterMap (TakMesa.matchVersion pat)) with
  | none => rfl
  | some m =>
    have h0 : (-1 : Int) ≤ (m : Int) :=
      le_trans (by norm_num) (Int.natCast_nonneg m)
    simp [max_eq_right h0]

theorem flsGo_append (pat : String) :
    ∀ (l : List String) (b : Option String) (bv : Int) (s : String),
      TakMesa.flsGo pat b bv (l ++ [s]) =
        match TakMesa.matchVersion pat s with
        | some v =>
          if TakMesa.maxV pat bv l ≤ (v : Int) then some s
          else TakMesa.flsGo pat b bv l
        | none => TakMesa.flsGo pat b bv l := by
  intro l
  induction l with
  | nil =>
    intro b bv s
    cases hm : TakMesa.matchVersion pat s with
    | none => simp [TakMesa.flsGo, hm]
    | some v => simp [TakMesa.flsGo, TakMesa.maxV, hm]
  | cons t l ih =>
    intro b bv s
    cases hm : TakMesa.matchVersion pat t with
    | none =>
      have hmv : TakMesa.maxV pat bv (t :: l) = TakMesa.maxV pat bv l := by
        simp [TakMesa.maxV, hm]
      simp only [List.cons_append, TakMesa.flsGo, hm, List.append_eq]
      rw [ih, hmv]
    | some v =>
      by_cases hc : bv ≤ (v : Int)
      · have hmv : TakMesa.maxV pat bv (t :: l)
            = TakMesa.maxV pat (v : Int) l := by
          simp [TakMesa.maxV, hm, max_eq_right hc]
        simp only [List.cons_append, TakMesa.flsGo, hm, if_pos hc,
          List.append_eq]
        rw [ih, hmv]
      · have hle : (v : Int) ≤ bv := le_of_not_le hc
        have hmv : TakMesa.maxV pat bv (t :: l) = TakMesa.maxV pat bv l := by
          simp [TakMesa.maxV, hm, max_eq_left hle]
        simp only [List.cons_append, TakMesa.flsGo, hm, if_neg hc,
          List.append_eq]
        rw [ih, hmv]

theorem natMax?_append_singleton :
    ∀ (ns : List Nat) (w : Nat),
      natMax? (ns ++ [w]) = some (match natMax? ns with
        | none => w
        | some m => Nat.max m w) := by
  intro ns w
  induction ns with
  | nil => rfl
  | cons t ts ih =>
    simp only [List.cons_append, natMax?, ih, List.append_eq]
    cases h : natMax? ts with
    | none => simp [h]
    | some m =>
      simp only [h]
      exact congrArg some (Nat.max_assoc t m w).symm

/-- C6 counterexample: for pattern `"Data"`, the sheets `"Data (1)"` and
`"Data(1)"` both match with version 1; the claim says the tie goes to
the first-seen sheet, but `find_latest_sheet` returns the last-seen
one. -/
theorem find_latest_sheet_tie_counterexample :
    TakMesa.find_latest_sheet ["Data (1)", "Data(1)"] "Data"
        = some "Data(1)" ∧
      TakMesa.matchVersion "Data" "Data (1)" = some 1 ∧
      TakMesa.matchVersion "Data" "Data(1)" = some 1 ∧
      ("Data(1)" : String) ≠ "Data (1)" := by
  refine ⟨by decide, by decide, by decide, by decide⟩

/-- C6 amended: `find_latest_sheet` returns the matching sheet with the
highest parenthesized numeric suffix (a sheet with no suffix counting as
version 0), and when several matching sheets share that highest version
it returns the LAST-seen one — the first match in the reversed list. -/
theorem find_latest_sheet_matches_spec (sheets : List String)
    (pat : String) :
    TakMesa.find_latest_sheet sheets pat
      = TakMesa.pick_latest_last_tie sheets pat := by
  induction sheets using List.reverseRecOn with
  | nil => rfl
  | append_singleton l s ih =>
    unfold TakMesa.find_latest_sheet at ih ⊢
    rw [flsGo_append]
    unfold TakMesa.pick_latest_last_tie
    rw [List.filterMap_append, List.reverse_append, List.reverse_singleton,
      List.singleton_append]
    unfold TakMesa.pick_latest_last_tie at ih
    cases hm : TakMesa.matchVersion pat s with
    | none =>
      simp only [List.filterMap_cons, hm, List.filterMap_nil,
        List.append_nil]
      cases hnm : natMax? (l.filterMap (TakMesa.matchVersion pat)) with
      | none =>
        rw [hnm] at ih
        exact ih
      | some v =>
        rw [hnm] at ih
        have ih2 : TakMesa.flsGo pat none (-1) l
            = List.find? (fun t => decide (TakMesa.matchVersion pat t
                = some v)) l.reverse := ih
        show TakMesa.flsGo pat none (-1) l
          = List.find? (fun t => decide (TakMesa.matchVersion pat t
              = some v)) (s :: l.reverse)
        rw [List.find?_cons_of_neg _ (by simp [hm])]
        exact ih2
    | some w =>
      simp only [List.filterMap_cons, hm, List.filterMap_nil]
      rw [natMax?_append_singleton]
      cases hnm : natMax? (l.filterMap (TakMesa.matchVersion pat)) with
      | none =>
        have hmv : TakMesa.maxV pat (-1) l = (-1 : Int) := by
          rw [maxV_neg_one, hnm]
        rw [hmv]
        have hc : (-1 : Int) ≤ (w : Int) :=
          le_trans (by norm_num) (Int.natCast_nonneg w)
        rw [if_pos hc]
        show some s
          = List.find? (fun t => decide (TakMesa.matchVersion pat t
              = some w)) (s :: l.reverse)
        rw [List.find?_cons_of_pos _ (by simp [hm])]
      | some m =>
        rw [hnm] at ih
        have ih2 : TakMesa.flsGo pat none (-1) l
            = List.find? (fun t => decide (TakMesa.matchVersion pat t
                = some m)) l.reverse := ih
        have hmv : TakMesa.maxV pat (-1) l = (m : Int) := by
          rw [maxV_neg_one, hnm]
        rw [hmv]
        by_cases hc : (m : Int) ≤ (w : Int)
        · have hmw : m ≤ w := Nat.cast_le.mp hc
          rw [if_pos hc]
          show some s
            = List.find? (fun t => decide (TakMesa.matchVersion pat t
                = some (Nat.max m w))) (s :: l.reverse)
          have hmax : Nat.max m w = w := Nat.max_eq_right hmw
          rw [hmax]
          rw [List.find?_cons_of_pos _ (by simp [hm])]
        · have hwm : w < m :=
            Nat.lt_of_not_le (fun h2 => hc (Nat.cast_le.mpr h2))
          rw [if_neg hc]
          show TakMesa.flsGo pat none (-1) l
            = List.find? (fun t => decide (TakMesa.matchVersion pat t
                = some (Nat.max m w))) (s :: l.reverse)
          have hmax : Nat.max m w = m := Nat.max_eq_left (Nat.le_of_lt hwm)
          rw [hmax]
          rw [List.find?_cons_of_neg _ (by simp only [hm,
            decide_eq_true_eq, Option.some.injEq]; omega)]
          exact ih2

theorem pickMaxGo_mem (tgt : Particle.TRow → Option Int) :
    ∀ (l : List Particle.TRow) (best : Particle.TRow) (bv : Int),
      Particle.pickMaxGo tgt best bv l = best
        ∨ Particle.pickMaxGo tgt best bv l ∈ l := by
  intro l
  induction l with
  | nil => intro best bv; left; rfl
  | cons r rs ih =>
    intro best bv
    cases h : tgt r with
    | none =>
      simp only [Particle.pickMaxGo, h]
      rcases ih best bv with h1 | h1
      · left; exact h1
      · right; exact List.mem_cons_of_mem r h1
    | some v =>
      simp only [Particle.pickMaxGo, h]
      by_cases hc : bv < v
      · rw [if_pos hc]
        rcases ih r v with h1 | h1
        · right; rw [h1]; exact List.mem_cons_self r rs
        · right; exact List.mem_cons_of_mem r h1
      · rw [if_neg hc]
        rcases ih best bv with h1 | h1
        · left; exact h1
        · right; exact List.mem_cons_of_mem r h1

theorem pickMaxGo_max (tgt : Particle.TRow → Option Int) :
    ∀ (l : List Particle.TRow) (best : Particle.TRow) (bv : Int),
      tgt best = some bv →
      ∃ w, tgt (Particle.pickMaxGo tgt best bv l) = some w ∧ bv ≤ w ∧
        ∀ x ∈ l, ∀ u, tgt x = some u → u ≤ w := by
  intro l
  induction l with
  | nil =>
    intro best bv hb
    refine ⟨bv, hb, le_refl bv, ?_⟩
    intro x hx
    cases hx
  | cons r rs ih =>
    intro best bv hb
    cases h : tgt r with
    | none =>
      simp only [Particle.pickMaxGo, h]
      obtain ⟨w, h1, h2, h3⟩ := ih best bv hb
      refine ⟨w, h1, h2, ?_⟩
      intro x hx u hu
      rcases List.mem_cons.mp hx with rfl | hx2
      · rw [h] at hu; cases hu
      · exact h3 x hx2 u hu
    | some v =>
      simp only [Particle.pickMaxGo, h]
      by_cases hc : bv < v
      · rw [if_pos hc]
        obtain ⟨w, h1, h2, h3⟩ := ih r v h
        refine ⟨w, h1, le_trans (le_of_lt hc) h2, ?_⟩
        intro x hx u hu
        rcases List.mem_cons.mp hx with rfl | hx2
        · rw [h] at hu
          injection hu with hu
          omega
        · exact h3 x hx2 u hu
      · rw [if_neg hc]
        obtain ⟨w, h1, h2, h3⟩ := ih best bv hb
        refine ⟨w, h1, h2, ?_⟩
        intro x hx u hu
        rcases List.mem_cons.mp hx with rfl | hx2
        · rw [h] at hu
          injection hu with hu
          omega
        · exact h3 x hx2 u hu

theorem pickMax_mem (tgt : Particle.TRow → Option Int) :
    ∀ (l : List Particle.TRow) (r : Particle.TRow),
      Particle.pickMax tgt l = some r → r ∈ l := by
  intro l
  induction l with
  | nil => intro r h; cases h
  | cons x xs ih =>
    intro r h
    cases ht : tgt x with
    | none =>
      simp only [Particle.pickMax, ht] at h
      exact List.mem_cons_of_mem x (ih r h)
    | some v =>
      simp only [Particle.pickMax, ht] at h
      injection h with h
      rcases pickMaxGo_mem tgt xs x v with h1 | h1
      · rw [← h, h1]; exact List.mem_cons_self x xs
      · rw [← h]; exact List.mem_cons_of_mem x h1

theorem pickMax_max (tgt : Particle.TRow → Option Int) :
    ∀ (l : List Particle.TRow) (r : Particle.TRow),
      Particle.pickMax tgt l = some r →
      ∀ y ∈ l, ∀ u, tgt y = some u → ∃ w, tgt r = some w ∧ u ≤ w := by
  intro l
  induction l with
  | nil => intro r h; cases h
  | cons x xs ih =>
    intro r h y hy u hu
    cases ht : tgt x with
    | none =>
      simp only [Particle.pickMax, ht] at h
      rcases List.mem_cons.mp hy with rfl | hy2
      · rw [ht] at hu; cases hu
      · exact ih r h y hy2 u hu
    | some v =>
      simp only [Particle.pickMax, ht] at h
      injection h with h
      obtain ⟨w, h1, h2, h3⟩ := pickMaxGo_max tgt xs x v ht
      rcases List.mem_cons.mp hy with rfl | hy2
      · rw [ht] at hu
        injection hu with hu
        exact ⟨w, h ▸ h1, by omega⟩
      · exact ⟨w, h ▸ h1, h3 y hy2 u hu⟩

theorem sameKey_eq (m : Nat) (k : String × Nat) (r : Particle.TRow)
    (h : Particle.sameKey m k r = true) :
    r.pt = some k.1 ∧ Particle.bucket m r = k.2 := by
  unfold Particle.sameKey at h
  rw [Bool.and_eq_true] at h
  constructor
  · have h1 := h.1
    rwa [beq_iff_eq] at h1
  · have h2 := h.2
    rwa [beq_iff_eq] at h2

theorem sameKey_key_inj (m : Nat) (k k0 : String × Nat)
    (r : Particle.TRow) (h1 : Particle.sameKey m k r = true)
    (h2 : Particle.sameKey m k0 r = true) : k = k0 := by
  obtain ⟨ha, hb⟩ := sameKey_eq m k r h1
  obtain ⟨hc, hd⟩ := sameKey_eq m k0 r h2
  have h5 : some k.1 = some k0.1 := by rw [← ha, hc]
  injection h5 with h5
  have h6 : k.2 = k0.2 := by rw [← hb, hd]
  rcases k with ⟨k1, k2⟩
  rcases k0 with ⟨k01, k02⟩
  simp only at h5 h6
  rw [h5, h6]

theorem resample_pick_key (m : Nat) (hasCh1 : Bool)
    (rows : List Particle.TRow) (k : String × Nat) (r : Particle.TRow)
    (h : Particle.pickMax (Particle.targetOf hasCh1)
        (rows.filter (Particle.sameKey m k)) = some r) :
    Particle.sameKey m k r = true :=
  (List.mem_filter.mp (pickMax_mem _ _ _ h)).2

theorem filter_no_key (m : Nat) (hasCh1 : Bool)
    (rows : List Particle.TRow) :
    ∀ (ks : List (String × Nat)) (k0 : String × Nat), k0 ∉ ks →
      (ks.filterMap (fun k => Particle.pickMax (Particle.targetOf hasCh1)
        (rows.filter (Particle.sameKey m k)))).filter
        (Particle.sameKey m k0) = [] := by
  intro ks
  induction ks with
  | nil => intro k0 _; rfl
  | cons k ks ih =>
    intro k0 hk0
    cases hf : Particle.pickMax (Particle.targetOf hasCh1)
        (rows.filter (Particle.sameKey m k)) with
    | none =>
      simp only [List.filterMap_cons, hf]
      exact ih k0 (fun h2 => hk0 (List.mem_cons_of_mem k h2))
    | some r =>
      simp only [List.filterMap_cons, hf]
      have hkr := resample_pick_key m hasCh1 rows k r hf
      by_cases h2 : Particle.sameKey m k0 r = true
      · have hkk : k = k0 := sameKey_key_inj m k k0 r hkr h2
        exact absurd (List.mem_cons.mpr (Or.inl hkk.symm)) hk0
      · rw [List.filter_cons_of_neg h2]
        exact ih k0 (fun h3 => hk0 (List.mem_cons_of_mem k h3))

theorem resample_count_le_one (m : Nat) (hasCh1 : Bool)
    (rows : List Particle.TRow) :
    ∀ (ks : List (String × Nat)), ks.Nodup →
      ∀ k0, ((ks.filterMap (fun k =>
        Particle.pickMax (Particle.targetOf hasCh1)
          (rows.filter (Particle.sameKey m k)))).filter
        (Particle.sameKey m k0)).length ≤ 1 := by
  intro ks
  induction ks with
  | nil => intro _ k0; simp
  | cons k ks ih =>
    intro hnd k0
    have hknotin := (List.nodup_cons.mp hnd).1
    have hnd2 := (List.nodup_cons.mp hnd).2
    cases hf : Particle.pickMax (Particle.targetOf hasCh1)
        (rows.filter (Particle.sameKey m k)) with
    | none =>
      simp only [List.filterMap_cons, hf]
      exact ih hnd2 k0
    | some r =>
      simp only [List.filterMap_cons, hf]
      have hkr := resample_pick_key m hasCh1 rows k r hf
      by_cases h2 : Particle.sameKey m k0 r = true
      · have hkk : k = k0 := sameKey_key_inj m k k0 r hkr h2
        subst hkk
        rw [List.filter_cons_of_pos h2,
          filter_no_key m hasCh1 rows ks k hknotin]
        simp
      · rw [List.filter_cons_of_neg h2]
        exact ih hnd2 k0

/-- C4: for every interval, the resampled output keeps at most one row
per `(group_key, bucket)` pair — the bucket being the floored timestamp
`ts / interval` — and the kept row's tie-break target value
(`Ch1KeisokuData` when the column is present, the timestamp otherwise)
is maximal among all input rows sharing that pair. -/
theorem resample_one_row_per_bucket_with_max (m : Nat) (hasCh1 : Bool)
    (rows : List Particle.TRow) :
    (∀ k : String × Nat,
        ((Particle.resample m hasCh1 rows).filter
          (Particle.sameKey m k)).length ≤ 1)
    ∧ (∀ r, r ∈ Particle.resample m hasCh1 rows →
        ∀ s ∈ rows, s.pt = r.pt →
        Particle.bucket m s = Particle.bucket m r →
        ∀ v, Particle.targetOf hasCh1 s = some v →
        ∃ w, Particle.targetOf hasCh1 r = some w ∧ v ≤ w) := by
  constructor
  · intro k
    unfold Particle.resample
    exact resample_count_le_one m hasCh1 rows _
      (List.nodup_dedup _) k
  · intro r hr s hs hpt hbk v hv
    unfold Particle.resample at hr
    rw [List.mem_filterMap] at hr
    obtain ⟨k, hk, hf⟩ := hr
    have hkr := resample_pick_key m hasCh1 rows k r hf
    obtain ⟨hpt2, hbk2⟩ := sameKey_eq m k r hkr
    have hsk : Particle.sameKey m k s = true := by
      unfold Particle.sameKey
      rw [Bool.and_eq_true]
      constructor
      · rw [beq_iff_eq, hpt, hpt2]
      · rw [beq_iff_eq, hbk, hbk2]
    exact pickMax_max _ _ _ hf s (List.mem_filter.mpr ⟨hs, hsk⟩) v hv

/-- Witness for C4: two rows of group `"X1"` at minutes 605 and 640 fall
in the same 120-minute bucket; the kept row maximizes `Ch1KeisokuData`
(value 9 ≥ 5). -/
theorem resample_one_row_per_bucket_with_max_witness :
    (((Particle.resample 120 true
        [⟨some "X1", 605, some 5⟩, ⟨some "X1", 640, some 9⟩]).filter
        (Particle.sameKey 120 ("X1", 5))).length ≤ 1)
    ∧ ∃ w, Particle.targetOf true ⟨some "X1", 640, some 9⟩ = some w ∧
        (5 : Int) ≤ w :=
  ⟨(resample_one_row_per_bucket_with_max 120 true
      [⟨some "X1", 605, some 5⟩, ⟨some "X1", 640, some 9⟩]).1 ("X1", 5),
    (resample_one_row_per_bucket_with_max 120 true
      [⟨some "X1", 605, some 5⟩, ⟨some "X1", 640, some 9⟩]).2
      ⟨some "X1", 640, some 9⟩ (by decide)
      ⟨some "X1", 605, some 5⟩ (by decide) (by decide) (by decide)
      5 (by decide)⟩

/-- Witness for C10: no date source, prefix `"AB"`, today 2025-12-31. -/
theorem build_serial_from_prefix_spec_witness :
    ∃ d : Particle.Date,
      ((∃ s, (none : Option String) = some s ∧ s ≠ "" ∧
          (fun (_ : String) => (none : Option Particle.Date)) s = some d) ∨
        (d = (⟨2025, 12, 31⟩ : Particle.Date) ∧
          ((none : Option String) = none ∨ (none : Option String) = some "" ∨
            ∃ s, (none : Option String) = some s ∧
              (fun (_ : String) => (none : Option Particle.Date)) s = none))) ∧
      Particle.build_serial_from_prefix (fun _ => none) ⟨2025, 12, 31⟩ "AB" none
        = ETL.pyStrip "AB" ++ Particle.fmtYYMMDD d ∧
      (Particle.fmtYYMMDD d).length = 6 :=
  build_serial_from_prefix_spec (fun _ => none) ⟨2025, 12, 31⟩ "AB" none
    (by decide) (by decide) (fun s d h => Option.noConfusion h)
